import Mathlib

/-!
# boost.fiber `context` control block: embedding of `include/boost/fiber/context.hpp`

Conventions of the embedding.

* A pointer is its address, a natural number below `2 ^ 64`; the null pointer is
  address `0`.
* `std::size_t` / `std::uintptr_t` arithmetic is arithmetic modulo `2 ^ 64`.
* `sizeof( context)` is not fixed by the header (it depends on the collaborating
  types), so every function that uses it takes it as the argument `sizeof_context`.
* An output stream is the text written to it so far.
-/

namespace Fiber

/-! ## Machine words and pointers -/

/-- Number of values of `std::size_t` and of a pointer (LP64). -/
def SIZE_MODULUS : Nat := 2 ^ 64

/-- The null pointer. -/
def nullptr : Nat := 0

/-- Unsigned (or pointer) addition, wrapping. -/
def wrap_add (a b : Nat) : Nat := (a + b) % SIZE_MODULUS

/-- Unsigned (or pointer) subtraction, wrapping. -/
def wrap_sub (a b : Nat) : Nat := (a + (SIZE_MODULUS - b % SIZE_MODULUS)) % SIZE_MODULUS

/-! ## `context::flag_t` -/

def flag_main_context : Nat := 1 <<< 1
def flag_dispatcher_context : Nat := 1 <<< 2
def flag_worker_context : Nat := 1 <<< 3
def flag_terminated : Nat := 1 <<< 4

/-! ## Collaborator records -/

/-- Record `boost::context::stack_context`: `sp` is the top (highest) address of the
allocation and `size` its length, so the allocation is `[sp - size, sp)`. -/
structure stack_context where
  size : Nat
  sp : Nat
deriving DecidableEq, Repr

/-- Record `boost::context::preallocated( sp, size, sctx)`. -/
structure preallocated where
  sp : Nat
  size : Nat
  sctx : stack_context
deriving DecidableEq, Repr

/-! ## `class context` -/

/-- Data members of `class context`.  A list hook is represented by its `is_linked()`
state, a queue by the list of the addresses of its members, `ctx_` by the region the
execution context was built on. -/
structure context where
  ready_hook_ : Bool
  terminated_hook_ : Bool
  wait_hook_ : Bool
  use_count_ : Nat
  flags_ : Nat
  scheduler_ : Nat
  ctx_ : preallocated
  wait_queue_ : List Nat
deriving DecidableEq, Repr

namespace context

/-- Constructor `context( worker_context_t, palloc, salloc, fn, args ...)`: the member
initialiser list.  Neither `salloc`, `fn` nor `args` reaches a data member other than
`ctx_`; the entry closure handed to `ctx_` is `worker_entry` below. -/
def worker {StackAlloc Fn Args : Type} (palloc : preallocated) (_salloc : StackAlloc)
    (_fn : Fn) (_args : Args) : context :=
  { ready_hook_ := false
    terminated_hook_ := false
    wait_hook_ := false
    use_count_ := 1
    flags_ := flag_worker_context
    scheduler_ := nullptr
    ctx_ := palloc
    wait_queue_ := [] }

def is_main_context (c : context) : Bool :=
  0 != (c.flags_ &&& flag_main_context)

def is_dispatcher_context (c : context) : Bool :=
  0 != (c.flags_ &&& flag_dispatcher_context)

def is_worker_context (c : context) : Bool :=
  0 != (c.flags_ &&& flag_worker_context)

def is_terminated (c : context) : Bool :=
  0 != (c.flags_ &&& flag_terminated)

/-! ## `class context::id` -/

/-- Class `context::id`: wraps the address of a context. -/
structure id where
  impl_ : Nat
deriving DecidableEq, Repr

namespace id

/-- Default constructor `id()`. -/
def default : id := { impl_ := nullptr }

/-- Constructor `explicit id( context * impl)`. -/
def of_ptr (impl : Nat) : id := { impl_ := impl }

/-- Member `operator==`. -/
def op_eq (a other : id) : Bool := a.impl_ == other.impl_

/-- Member `operator!=`. -/
def op_ne (a other : id) : Bool := a.impl_ != other.impl_

/-- Member `operator<`. -/
def op_lt (a other : id) : Bool := decide (a.impl_ < other.impl_)

/-- Member `operator>`. -/
def op_gt (a other : id) : Bool := decide (other.impl_ < a.impl_)

/-- Member `operator<=`. -/
def op_le (a other : id) : Bool := ! (op_gt a other)

/-- Member `operator>=`. -/
def op_ge (a other : id) : Bool := ! (op_lt a other)

/-- Member `explicit operator bool()`. -/
def op_bool (a : id) : Bool := nullptr != a.impl_

/-- Member `operator!()`. -/
def op_not (a : id) : Bool := nullptr == a.impl_

end id

/-! ## Printing an identity handle -/

/-- Formatting of a pointer by the stream inserter `operator<<( void const*)` of the
standard library, which is not part of this header: the `%p` conversion, that is `0x`
followed by the hexadecimal digits of the address. -/
def print_pointer (p : Nat) : String :=
  "0x" ++ String.mk (Nat.toDigits 16 p)

/-- Friend `operator<<( os, id const& other)`; the result is the stream after the
insertion. -/
def id.op_shl (os : String) (other : id) : String :=
  if nullptr != other.impl_ then
    os ++ print_pointer other.impl_
  else
    os ++ "\x7bnot-valid\x7d"

/-! ## Reference counting -/

/-- Friend `intrusive_ptr_add_ref( context * ctx)`.  The context is passed by value, so
`BOOST_ASSERT( nullptr != ctx)` holds by construction. -/
def intrusive_ptr_add_ref (ctx : context) : context :=
  { ctx with use_count_ := wrap_add ctx.use_count_ 1 }

/-- Friend `intrusive_ptr_release( context * ctx)`.  The second component tells whether
the destructor `ctx->~context()` was invoked. -/
def intrusive_ptr_release (ctx : context) : context × Bool :=
  let ctx1 := { ctx with use_count_ := wrap_sub ctx.use_count_ 1 }
  if 0 == ctx1.use_count_ then (ctx1, true) else (ctx1, false)

/-- One call of the reference counting interface. -/
inductive ref_call where
  | add_ref
  | release
deriving DecidableEq, Repr

/-- Effect of one call: the context afterwards and whether the destructor ran. -/
def apply_call (ctx : context) : ref_call → context × Bool
  | .add_ref => (intrusive_ptr_add_ref ctx, false)
  | .release => intrusive_ptr_release ctx

/-- The context after a sequence of calls. -/
def state_after (ctx : context) : List ref_call → context
  | [] => ctx
  | op :: rest => state_after (apply_call ctx op).1 rest

/-- Number of destructor invocations during a sequence of calls. -/
def destructor_calls (ctx : context) : List ref_call → Nat
  | [] => 0
  | op :: rest =>
    (if (apply_call ctx op).2 then 1 else 0) + destructor_calls (apply_call ctx op).1 rest

/-- The use count is positive before every `intrusive_ptr_release` of the sequence. -/
def positive_before_release (ctx : context) : List ref_call → Bool
  | [] => true
  | .add_ref :: rest => positive_before_release (apply_call ctx .add_ref).1 rest
  | .release :: rest =>
    decide (0 < ctx.use_count_) && positive_before_release (apply_call ctx .release).1 rest

/-- The use count is positive before every call of the sequence. -/
def positive_before_call (ctx : context) : List ref_call → Bool
  | [] => true
  | op :: rest =>
    decide (0 < ctx.use_count_) && positive_before_call (apply_call ctx op).1 rest

/-- What holds of the call `op` made in state `before` when every call counts by one
and the destructor runs in the last call only: `add_ref` raises the use count by one
and destroys nothing, `release` lowers it by one and invokes the destructor exactly
when the count becomes zero, and the destructor is invoked exactly when `later`, the
calls that follow, is empty. -/
def counts_by_one (before : context) (op : ref_call) (later : List ref_call) : Prop :=
  (op = .add_ref →
    (apply_call before op).1.use_count_ = before.use_count_ + 1 ∧
    (apply_call before op).2 = false) ∧
  (op = .release →
    (apply_call before op).1.use_count_ + 1 = before.use_count_ ∧
    ((apply_call before op).2 = true ↔ (apply_call before op).1.use_count_ = 0)) ∧
  ((apply_call before op).2 = true ↔ later = [])

end context

/-! ## Stack carving: `make_dispatcher_context` and `make_worker_context` -/

/-- Standard library function `std::align( alignment, size, ptr, space)`, called but
not defined by this header; after [ptr.align] of the C++ standard and the arithmetic
of its usual implementation `(ptr - 1 + alignment) & -alignment`, for `alignment` a
power of two.  The result is the returned pointer (null when `size` bytes do not fit
after aligning), followed by the values of the reference arguments `ptr` and `space`
after the call. -/
def std_align (alignment size ptr space : Nat) : Nat × Nat × Nat :=
  if space < size then
    (nullptr, ptr, space)
  else
    let aligned := wrap_add (wrap_sub ptr 1) alignment / alignment * alignment
    let diff := wrap_sub aligned ptr
    if diff > space - size then
      (nullptr, ptr, space)
    else
      (aligned, aligned, space - diff)

/-- The placement-new expression `new ( sp) context( tag, preallocated( sp, size, sctx),
salloc, ...)` both factories end with: the address the control block is constructed
at, which the returned `intrusive_ptr` holds, and the region passed to the
constructor, which hands it to the switch primitive. -/
structure placement where
  address : Nat
  palloc : preallocated
deriving DecidableEq, Repr

/-- Factory `make_dispatcher_context( sched)`, `std::align` branch.  `sctx` is the
result of `salloc.allocate()`; `none` is the failure of
`BOOST_ASSERT( nullptr != sp)`. -/
def make_dispatcher_context (sizeof_context : Nat) (sctx : stack_context) (_sched : Nat) :
    Option placement :=
  let func_alignment := 64
  let func_size := sizeof_context
  let sp := wrap_sub (wrap_sub sctx.sp func_size) func_alignment
  let space := wrap_add func_size func_alignment
  let sp := (std_align func_alignment func_size sp space).1
  if sp = nullptr then
    none
  else
    let size := wrap_sub sctx.size (wrap_sub sctx.sp sp)
    some { address := sp, palloc := { sp := sp, size := size, sctx := sctx } }

/-- Factory `make_worker_context( salloc, fn, args ...)`, `std::align` branch.  `sctx`
is the result of `salloc.allocate()`; `none` is the failure of
`BOOST_ASSERT( nullptr != sp)`. -/
def make_worker_context (sizeof_context : Nat) (sctx : stack_context) : Option placement :=
  let func_alignment := 64
  let func_size := sizeof_context
  let sp := wrap_sub (wrap_sub sctx.sp func_size) func_alignment
  let space := wrap_add func_size func_alignment
  let sp := (std_align func_alignment func_size sp space).1
  if sp = nullptr then
    none
  else
    let size := wrap_sub sctx.size (wrap_sub sctx.sp sp)
    some { address := sp, palloc := { sp := sp, size := size, sctx := sctx } }

/-- A stack context that describes an allocation: the region `[sp - size, sp)` lies in
the address space and its lowest address is not null. -/
def stack_context.valid (sctx : stack_context) : Prop :=
  sctx.size < sctx.sp ∧ sctx.sp < SIZE_MODULUS

instance (sctx : stack_context) : Decidable sctx.valid := by
  unfold stack_context.valid
  exact inferInstance

/-! ## Entry closure of a worker context -/

/-- Modelled from the spec: member `context::set_terminated_()` is declared in the
header and defined outside it; it "marks the fiber as terminated", the `terminated`
flag going from false to true. -/
def context.set_terminated_ (c : context) : context :=
  { c with flags_ := c.flags_ ||| flag_terminated }

/-- The running worker together with the ready list of its scheduler. -/
structure fiber_world where
  self : context
  ready_queue : List Nat
deriving DecidableEq, Repr

/-- Modelled from the spec: member `context::release()` is declared in the header and
defined outside it; it "moves every context currently in this context's wait list onto
the scheduler's ready list", in the order they queued. -/
def fiber_world.release (w : fiber_world) : fiber_world :=
  { self := { w.self with wait_queue_ := [] }
    ready_queue := w.ready_queue ++ w.self.wait_queue_ }

/-- Steps of the entry closure. -/
inductive entry_step where
  | invoke_fn
  | set_terminated_
  | release
  | suspend_
  | assertion_failed (msg : String)
deriving DecidableEq, Repr

/-- The entry closure the worker constructor hands to `ctx_`: the steps it performs, in
order, each with the state it starts from.  The user function runs on the state of the
fiber and leaves a state behind when it returns; `fn tpl w` is `none` when it does not
return.  Member `suspend_()` is declared in the header and defined outside it; it
switches to another fiber, and `resumed` is the state in which control comes back from
it, `none` when it never does. -/
def worker_entry {α β : Type} (fn : α → fiber_world → Option (β × fiber_world)) (tpl : α)
    (resumed : Option fiber_world) (w : fiber_world) : List (entry_step × fiber_world) :=
  match fn tpl w with
  | none => [(.invoke_fn, w)]
  | some (_, wr) =>
    let w1 : fiber_world := { wr with self := wr.self.set_terminated_ }
    let w2 := w1.release
    match resumed with
    | none =>
      [(.invoke_fn, w), (.set_terminated_, wr), (.release, w1), (.suspend_, w2)]
    | some w3 =>
      [(.invoke_fn, w), (.set_terminated_, wr), (.release, w1), (.suspend_, w2),
        (.assertion_failed "fiber already terminated", w3)]

/-! ## Theorems -/

open context

/-- C5: the six comparison operators of `context::id` form a total order that agrees
with the order of the wrapped addresses: `<=` is reflexive, antisymmetric, transitive
and total, `<` is address `<`, `>` is the converse of `<`, `<=` is the negation of `>`,
`>=` the negation of `<`, and exactly one of `a < b`, `a == b`, `a > b` holds. -/
theorem id_total_order (a b c : id) :
    id.op_le a a = true ∧
    (id.op_le a b = true → id.op_le b a = true → id.op_eq a b = true ∧ a = b) ∧
    (id.op_le a b = true → id.op_le b c = true → id.op_le a c = true) ∧
    (id.op_le a b = true ∨ id.op_le b a = true) ∧
    (id.op_lt a b = true ↔ a.impl_ < b.impl_) ∧
    (id.op_gt a b = true ↔ id.op_lt b a = true) ∧
    (id.op_le a b = true ↔ ¬ id.op_gt a b = true) ∧
    (id.op_ge a b = true ↔ ¬ id.op_lt a b = true) ∧
    (id.op_le a b = true ↔ a.impl_ ≤ b.impl_) ∧
    (id.op_ge a b = true ↔ b.impl_ ≤ a.impl_) ∧
    ((id.op_lt a b = true ∧ ¬ id.op_eq a b = true ∧ ¬ id.op_gt a b = true) ∨
     (¬ id.op_lt a b = true ∧ id.op_eq a b = true ∧ ¬ id.op_gt a b = true) ∨
     (¬ id.op_lt a b = true ∧ ¬ id.op_eq a b = true ∧ id.op_gt a b = true)) := by
  obtain ⟨x⟩ := a
  obtain ⟨y⟩ := b
  obtain ⟨z⟩ := c
  simp only [id.op_le, id.op_ge, id.op_gt, id.op_lt, id.op_eq, Bool.not_eq_true',
    decide_eq_false_iff_not, decide_eq_true_eq, beq_iff_eq, id.mk.injEq]
  refine ⟨?_, ?_, ?_, ?_, ?_, ?_, ?_, ?_, ?_, ?_, ?_⟩ <;> first | trivial | omega

/-- Witness for `id_total_order`: the handles of the addresses `0x1000`, `0x2000` and
`0x3000`, chained by transitivity. -/
theorem id_total_order_witness :
    id.op_le (id.of_ptr 0x1000) (id.of_ptr 0x2000) = true ∧
    id.op_le (id.of_ptr 0x2000) (id.of_ptr 0x3000) = true ∧
    id.op_le (id.of_ptr 0x1000) (id.of_ptr 0x3000) = true :=
  ⟨by decide, by decide,
    (id_total_order (id.of_ptr 0x1000) (id.of_ptr 0x2000) (id.of_ptr 0x3000)).2.2.1
      (by decide) (by decide)⟩

/-- C6: equality of identity handles is equality of the wrapped addresses, `!=` is the
negation of `==`, two handles built from one context are equal, and the default
handle differs from the handle of every non-null context pointer. -/
theorem id_eq_iff_ptr_eq (p q : Nat) :
    (id.op_eq (id.of_ptr p) (id.of_ptr q) = true ↔ p = q) ∧
    (id.op_ne (id.of_ptr p) (id.of_ptr q) = true ↔
      ¬ id.op_eq (id.of_ptr p) (id.of_ptr q) = true) ∧
    id.op_eq (id.of_ptr p) (id.of_ptr p) = true ∧
    (p ≠ nullptr →
      id.op_eq id.default (id.of_ptr p) = false ∧
      id.op_ne id.default (id.of_ptr p) = true ∧
      id.op_eq (id.of_ptr p) id.default = false ∧
      id.op_ne (id.of_ptr p) id.default = true) := by
  simp only [id.op_eq, id.op_ne, id.of_ptr, id.default, nullptr, beq_iff_eq, bne_iff_ne,
    ne_eq, beq_eq_false_iff_ne]
  refine ⟨?_, ?_, ?_, ?_⟩ <;> first | trivial | omega

/-- Witness for `id_eq_iff_ptr_eq`: the default handle differs from the handle of the
address `0x1000`. -/
theorem id_eq_iff_ptr_eq_witness :
    (0x1000 : Nat) ≠ nullptr ∧
    id.op_ne id.default (id.of_ptr 0x1000) = true :=
  ⟨by decide, ((id_eq_iff_ptr_eq 0x1000 0x1000).2.2.2 (by decide)).2.1⟩

/-- C7: the default handle converts to `false`, the handle of a non-null context
pointer converts to `true`, and `operator!` is the negation of `operator bool`. -/
theorem id_truthiness (p : Nat) (h : id) :
    id.op_bool id.default = false ∧
    (p ≠ nullptr → id.op_bool (id.of_ptr p) = true) ∧
    id.op_not h = ! id.op_bool h := by
  obtain ⟨x⟩ := h
  refine ⟨by decide, ?_, ?_⟩
  · intro hp
    simp only [id.op_bool, id.of_ptr, bne_iff_ne, ne_eq]
    exact fun e => hp e.symm
  · by_cases hx : nullptr = x <;> simp [id.op_bool, id.op_not, bne, hx]

/-- Witness for `id_truthiness`: the handle of the address `0x1000` is truthy. -/
theorem id_truthiness_witness :
    (0x1000 : Nat) ≠ nullptr ∧ id.op_bool (id.of_ptr 0x1000) = true :=
  ⟨by decide, (id_truthiness 0x1000 id.default).2.1 (by decide)⟩

/-- C9: right after the worker constructor the use count is 1, the role is exactly
worker, the context is not terminated, it has no scheduler and nobody waits for it. -/
theorem worker_initial_state {StackAlloc Fn Args : Type} (palloc : preallocated)
    (salloc : StackAlloc) (fn : Fn) (args : Args) :
    (worker palloc salloc fn args).use_count_ = 1 ∧
    is_worker_context (worker palloc salloc fn args) = true ∧
    is_main_context (worker palloc salloc fn args) = false ∧
    is_dispatcher_context (worker palloc salloc fn args) = false ∧
    is_terminated (worker palloc salloc fn args) = false ∧
    (worker palloc salloc fn args).scheduler_ = nullptr ∧
    (worker palloc salloc fn args).wait_queue_ = [] ∧
    (worker palloc salloc fn args).flags_ = flag_worker_context ∧
    (worker palloc salloc fn args).ready_hook_ = false ∧
    (worker palloc salloc fn args).terminated_hook_ = false ∧
    (worker palloc salloc fn args).wait_hook_ = false ∧
    (worker palloc salloc fn args).ctx_ = palloc := by
  refine ⟨rfl, ?_, ?_, ?_, ?_, rfl, rfl, rfl, rfl, rfl, rfl, rfl⟩ <;>
    simp only [is_worker_context, is_main_context, is_dispatcher_context, is_terminated,
      worker] <;> decide

/-! ### Printing -/

/-- C8, as stated, fails: streaming the default handle into an empty stream does not
leave the text `not-valid` in it; the text written has braces around it. -/
theorem print_default_not_bare_text :
    id.op_shl "" id.default ≠ "not-valid" ∧
    id.op_shl "" id.default = "\x7bnot-valid\x7d" := by
  decide

theorem print_pointer_data (p : Nat) :
    (print_pointer p).data = '0' :: 'x' :: Nat.toDigits 16 p := by
  simp [print_pointer, String.data_append]

theorem string_append_left_cancel (os a b : String) (h : os ++ a = os ++ b) : a = b := by
  have h1 : (os ++ a).data = (os ++ b).data := by rw [h]
  rw [String.data_append, String.data_append] at h1
  exact String.ext (List.append_cancel_left h1)

/-- C8, amended: streaming the default handle appends the text `{not-valid}` (braces
included) to the stream; streaming the handle of a non-null context pointer appends
the formatted address of that pointer, which is neither `{not-valid}` nor `not-valid`,
so the stream never ends up as it would after printing the sentinel. -/
theorem print_id (os : String) (p : Nat) :
    id.op_shl os id.default = os ++ "\x7bnot-valid\x7d" ∧
    (p ≠ nullptr →
      id.op_shl os (id.of_ptr p) = os ++ print_pointer p ∧
      print_pointer p ≠ "\x7bnot-valid\x7d" ∧
      print_pointer p ≠ "not-valid" ∧
      id.op_shl os (id.of_ptr p) ≠ id.op_shl os id.default) := by
  have hdef : id.op_shl os id.default = os ++ "\x7bnot-valid\x7d" := by
    simp [id.op_shl, id.default]
  have hne1 : print_pointer p ≠ "\x7bnot-valid\x7d" := by
    intro h
    have h1 := congrArg String.data h
    rw [print_pointer_data] at h1
    have h2 := (List.cons.inj h1).1
    exact absurd h2 (by decide)
  have hne2 : print_pointer p ≠ "not-valid" := by
    intro h
    have h1 := congrArg String.data h
    rw [print_pointer_data] at h1
    have h2 := (List.cons.inj h1).1
    exact absurd h2 (by decide)
  refine ⟨hdef, ?_⟩
  intro hp
  have hp2 : ¬ nullptr = p := fun e => hp e.symm
  have hval : id.op_shl os (id.of_ptr p) = os ++ print_pointer p := by
    simp [id.op_shl, id.of_ptr, hp2]
  refine ⟨hval, hne1, hne2, ?_⟩
  rw [hval, hdef]
  intro h
  exact hne1 (string_append_left_cancel os _ _ h)

/-- Witness for `print_id` at the address `4096`. -/
theorem print_id_witness :
    (4096 : Nat) ≠ nullptr ∧
    id.op_shl "" (id.of_ptr 4096) = "" ++ print_pointer 4096 ∧
    id.op_shl "" (id.of_ptr 4096) ≠ id.op_shl "" id.default :=
  ⟨by decide, ((print_id "" 4096).2 (by decide)).1, ((print_id "" 4096).2 (by decide)).2.2.2⟩

/-! ### Reference counting -/

theorem add_ref_use_count (ctx : context) (h : ctx.use_count_ + 1 < SIZE_MODULUS) :
    (apply_call ctx .add_ref).1.use_count_ = ctx.use_count_ + 1 ∧
    (apply_call ctx .add_ref).2 = false := by
  refine ⟨?_, rfl⟩
  simp only [apply_call, intrusive_ptr_add_ref, wrap_add]
  exact Nat.mod_eq_of_lt h

theorem add_ref_wraps (ctx : context) (h : ctx.use_count_ + 1 = SIZE_MODULUS) :
    (apply_call ctx .add_ref).1.use_count_ = 0 := by
  simp only [apply_call, intrusive_ptr_add_ref, wrap_add]
  rw [h]
  exact Nat.mod_self _

theorem release_use_count (ctx : context) (h0 : 0 < ctx.use_count_)
    (h : ctx.use_count_ < SIZE_MODULUS) :
    (apply_call ctx .release).1.use_count_ + 1 = ctx.use_count_ ∧
    ((apply_call ctx .release).2 = true ↔ (apply_call ctx .release).1.use_count_ = 0) := by
  have hw : wrap_sub ctx.use_count_ 1 = ctx.use_count_ - 1 := by
    unfold wrap_sub
    unfold SIZE_MODULUS at *
    omega
  simp only [apply_call, intrusive_ptr_release, hw]
  by_cases h1 : ctx.use_count_ - 1 = 0
  · simp [h1]
    omega
  · have h2 : ¬ 0 = ctx.use_count_ - 1 := fun e => h1 e.symm
    simp [h1, h2]
    omega

theorem state_after_cons (ctx : context) (op : ref_call) (rest : List ref_call) :
    state_after ctx (op :: rest) = state_after (apply_call ctx op).1 rest := rfl

theorem state_after_nil (ctx : context) : state_after ctx [] = ctx := rfl

theorem destructor_calls_cons (ctx : context) (op : ref_call) (rest : List ref_call) :
    destructor_calls ctx (op :: rest) =
      (if (apply_call ctx op).2 then 1 else 0) + destructor_calls (apply_call ctx op).1 rest :=
  rfl

theorem destructor_calls_nil (ctx : context) : destructor_calls ctx [] = 0 := rfl

theorem positive_before_call_cons (ctx : context) (op : ref_call) (rest : List ref_call)
    (h : positive_before_call ctx (op :: rest) = true) :
    0 < ctx.use_count_ ∧ positive_before_call (apply_call ctx op).1 rest = true := by
  simpa [positive_before_call] using h

theorem refcount_invariant (calls : List ref_call) : ∀ ctx : context,
    0 < ctx.use_count_ → ctx.use_count_ < SIZE_MODULUS →
    calls.count .release = calls.count .add_ref + ctx.use_count_ →
    positive_before_call ctx calls = true →
    (∀ pre op post, calls = pre ++ op :: post →
      counts_by_one (state_after ctx pre) op post) ∧
    destructor_calls ctx calls = 1 ∧
    (state_after ctx calls).use_count_ = 0 := by
  induction calls with
  | nil =>
    intro ctx h0 _ hcnt _
    simp at hcnt
    omega
  | cons c rest ih =>
    intro ctx h0 hlt hcnt hpos
    have hpos1 := (positive_before_call_cons ctx c rest hpos).2
    cases c with
    | add_ref =>
      have hcnt1 : rest.count .release = rest.count .add_ref + 1 + ctx.use_count_ := by
        simp [List.count_cons] at hcnt
        omega
      have hne : rest ≠ [] := by
        intro e
        rw [e] at hcnt1
        simp at hcnt1
        omega
      have hnw : ctx.use_count_ + 1 < SIZE_MODULUS := by
        rcases Nat.lt_or_ge (ctx.use_count_ + 1) SIZE_MODULUS with h | h
        · exact h
        · exfalso
          have hz := add_ref_wraps ctx (by omega)
          cases rest with
          | nil => exact hne rfl
          | cons d rest1 =>
            have := (positive_before_call_cons _ d rest1 hpos1).1
            omega
      obtain ⟨hu, hd⟩ := add_ref_use_count ctx hnw
      obtain ⟨ih1, ih2, ih3⟩ := ih (apply_call ctx .add_ref).1 (by omega) (by omega)
        (by omega) hpos1
      refine ⟨?_, ?_, ?_⟩
      · intro pre op post hsplit
        cases pre with
        | nil =>
          simp only [List.nil_append, List.cons.injEq] at hsplit
          obtain ⟨hop, hpost⟩ := hsplit
          subst hop
          subst hpost
          rw [state_after_nil]
          refine ⟨fun _ => ⟨hu, hd⟩, fun h => (by cases h), ?_⟩
          rw [hd]
          simp [hne]
        | cons c1 pre1 =>
          simp only [List.cons_append, List.cons.injEq] at hsplit
          obtain ⟨hc1, hrest⟩ := hsplit
          subst hc1
          rw [state_after_cons]
          exact ih1 pre1 op post hrest
      · rw [destructor_calls_cons, hd, ih2]
        rfl
      · rw [state_after_cons]
        exact ih3
    | release =>
      have hcnt1 : rest.count .release + 1 = rest.count .add_ref + ctx.use_count_ := by
        simp [List.count_cons] at hcnt
        omega
      obtain ⟨hu, hd⟩ := release_use_count ctx h0 hlt
      by_cases hone : (apply_call ctx .release).1.use_count_ = 0
      · have hnil : rest = [] := by
          cases rest with
          | nil => rfl
          | cons d rest1 =>
            have := (positive_before_call_cons _ d rest1 hpos1).1
            omega
        subst hnil
        have hdt : (apply_call ctx .release).2 = true := hd.mpr hone
        refine ⟨?_, ?_, ?_⟩
        · intro pre op post hsplit
          cases pre with
          | nil =>
            simp only [List.nil_append, List.cons.injEq] at hsplit
            obtain ⟨hop, hpost⟩ := hsplit
            subst hop
            subst hpost
            rw [state_after_nil]
            refine ⟨fun h => (by cases h), fun _ => ⟨hu, hd⟩, ?_⟩
            simp [hdt]
          | cons c1 pre1 =>
            simp only [List.cons_append, List.cons.injEq] at hsplit
            have := hsplit.2
            simp at this
        · rw [destructor_calls_cons, hdt, destructor_calls_nil]
          rfl
        · rw [state_after_cons, state_after_nil]
          exact hone
      · have hdf : (apply_call ctx .release).2 = false := by
          cases hb : (apply_call ctx .release).2 with
          | false => rfl
          | true => exact absurd (hd.mp hb) hone
        have hne : rest ≠ [] := by
          intro e
          rw [e] at hcnt1
          simp at hcnt1
          omega
        obtain ⟨ih1, ih2, ih3⟩ := ih (apply_call ctx .release).1 (by omega) (by omega)
          (by omega) hpos1
        refine ⟨?_, ?_, ?_⟩
        · intro pre op post hsplit
          cases pre with
          | nil =>
            simp only [List.nil_append, List.cons.injEq] at hsplit
            obtain ⟨hop, hpost⟩ := hsplit
            subst hop
            subst hpost
            rw [state_after_nil]
            refine ⟨fun h => (by cases h), fun _ => ⟨hu, hd⟩, ?_⟩
            rw [hdf]
            simp [hne]
          | cons c1 pre1 =>
            simp only [List.cons_append, List.cons.injEq] at hsplit
            obtain ⟨hc1, hrest⟩ := hsplit
            subst hc1
            rw [state_after_cons]
            exact ih1 pre1 op post hrest
        · rw [destructor_calls_cons, hdf, ih2]
          rfl
        · rw [state_after_cons]
          exact ih3

/-- C1, as stated, fails: from the use count 1 of a fresh worker context the calls
release, add_ref, release are one add_ref and two releases, the count is positive
before each of the two releases, and yet the destructor is invoked twice, the first
time by the first call, which is not the final release. -/
theorem release_add_ref_release_destroys_twice :
    (worker ⟨0x7f000000fe80, 65152, ⟨65536, 0x7f0000010000⟩⟩ ()
      (fun n : Nat => some (n + 1)) 41).use_count_ = 1 ∧
    List.count ref_call.add_ref [ref_call.release, ref_call.add_ref, ref_call.release] = 1 ∧
    List.count ref_call.release [ref_call.release, ref_call.add_ref, ref_call.release]
      = 1 + 1 ∧
    positive_before_release (worker ⟨0x7f000000fe80, 65152, ⟨65536, 0x7f0000010000⟩⟩ ()
      (fun n : Nat => some (n + 1)) 41)
      [ref_call.release, ref_call.add_ref, ref_call.release] = true ∧
    (apply_call (worker ⟨0x7f000000fe80, 65152, ⟨65536, 0x7f0000010000⟩⟩ ()
      (fun n : Nat => some (n + 1)) 41) ref_call.release).2 = true ∧
    destructor_calls (worker ⟨0x7f000000fe80, 65152, ⟨65536, 0x7f0000010000⟩⟩ ()
      (fun n : Nat => some (n + 1)) 41)
      [ref_call.release, ref_call.add_ref, ref_call.release] = 2 := by
  decide

/-- C1, amended: for a context whose use count is 1 and every sequence of
`intrusive_ptr_add_ref` / `intrusive_ptr_release` calls with `N` add_refs and `N + 1`
releases in which the count is positive before every call (add_ref as well as
release), each add_ref raises the count by exactly 1 and invokes no destructor, each
release lowers it by exactly 1 and invokes the destructor if and only if it brings the
count to 0, a call invokes the destructor if and only if it is the last call, the last
call is a release, and the destructor is invoked exactly once. -/
theorem refcount_destroys_once (ctx : context) (calls : List ref_call) (N : Nat)
    (h1 : ctx.use_count_ = 1)
    (hadd : calls.count ref_call.add_ref = N)
    (hrel : calls.count ref_call.release = N + 1)
    (hpos : positive_before_call ctx calls = true) :
    (∀ pre op post, calls = pre ++ op :: post →
      (op = ref_call.add_ref →
        (apply_call (state_after ctx pre) op).1.use_count_
          = (state_after ctx pre).use_count_ + 1 ∧
        (apply_call (state_after ctx pre) op).2 = false) ∧
      (op = ref_call.release →
        (apply_call (state_after ctx pre) op).1.use_count_ + 1
          = (state_after ctx pre).use_count_ ∧
        ((apply_call (state_after ctx pre) op).2 = true ↔
          (apply_call (state_after ctx pre) op).1.use_count_ = 0)) ∧
      ((apply_call (state_after ctx pre) op).2 = true ↔ post = [])) ∧
    calls.getLast? = some ref_call.release ∧
    destructor_calls ctx calls = 1 ∧
    (state_after ctx calls).use_count_ = 0 := by
  have hM : (1 : Nat) < SIZE_MODULUS := by decide
  obtain ⟨hsteps, hdtor, hzero⟩ :=
    refcount_invariant calls ctx (by omega) (by omega) (by omega) hpos
  refine ⟨hsteps, ?_, hdtor, hzero⟩
  rcases List.eq_nil_or_concat calls with hnil | ⟨front, b, hb⟩
  · rw [hnil] at hrel
    simp at hrel
  · have hlast := hsteps front b [] (by simpa using hb)
    obtain ⟨hA, _, hD⟩ := hlast
    have hdt : (apply_call (state_after ctx front) b).2 = true := hD.mpr rfl
    have hbr : b = ref_call.release := by
      cases b with
      | release => rfl
      | add_ref =>
        have := (hA rfl).2
        rw [this] at hdt
        cases hdt
    rw [hb, hbr]
    simp

/-- Witness for `refcount_destroys_once`: add_ref, release, release on a fresh
worker context. -/
theorem refcount_destroys_once_witness :
    destructor_calls (worker ⟨0x7f000000fe80, 65152, ⟨65536, 0x7f0000010000⟩⟩ ()
      (fun n : Nat => some (n + 1)) 41)
      [ref_call.add_ref, ref_call.release, ref_call.release] = 1 :=
  (refcount_destroys_once (worker ⟨0x7f000000fe80, 65152, ⟨65536, 0x7f0000010000⟩⟩ ()
      (fun n : Nat => some (n + 1)) 41)
    [ref_call.add_ref, ref_call.release, ref_call.release] 1 rfl (by decide) (by decide)
    (by decide)).2.2.1

/-! ### Stack carving -/

/-- Value of `make_worker_context` on machine-representable arguments: `std::align`
never reports a failure of its own, the aligned pointer is the reserved pointer rounded
up to a multiple of 64 (modulo the size of the address space), and the factory fails
exactly when that pointer is null. -/
theorem make_worker_context_eq (fs S t : Nat)
    (hfs : fs + 64 < SIZE_MODULUS) :
    make_worker_context fs ⟨S, t⟩ =
      if wrap_add (wrap_sub (wrap_sub (wrap_sub t fs) 64) 1) 64 / 64 * 64 = 0 then none
      else
        some
          { address := wrap_add (wrap_sub (wrap_sub (wrap_sub t fs) 64) 1) 64 / 64 * 64
            palloc :=
              { sp := wrap_add (wrap_sub (wrap_sub (wrap_sub t fs) 64) 1) 64 / 64 * 64
                size := wrap_sub S (wrap_sub t
                  (wrap_add (wrap_sub (wrap_sub (wrap_sub t fs) 64) 1) 64 / 64 * 64))
                sctx := ⟨S, t⟩ } } := by
  have h1 : ¬ wrap_add fs 64 < fs := by
    unfold wrap_add SIZE_MODULUS at *
    omega
  have h2 : ¬ wrap_sub (wrap_add (wrap_sub (wrap_sub (wrap_sub t fs) 64) 1) 64 / 64 * 64)
      (wrap_sub (wrap_sub t fs) 64) > wrap_add fs 64 - fs := by
    unfold wrap_add wrap_sub SIZE_MODULUS at *
    omega
  unfold make_worker_context std_align
  simp only [h1, h2, if_false, nullptr]

/-- C2: for every stack context with machine-representable top address and size
`S >= sizeof( context) + 64`, whenever `make_worker_context` gets past its assertion
the control block address `sp` is a multiple of 64, it is the placement address, the
size handed to the switch primitive is `S - (sctx.sp - sp)` in `size_t` arithmetic,
and `S - size >= sizeof( context)`, so `size < S`; the assertion fails only when
`sizeof( context) < sctx.sp <= sizeof( context) + 64`, hence never for an allocation
whose lowest address `sctx.sp - S` is not null, where moreover `size` is
`S - (sctx.sp - sp)` in plain arithmetic. -/
theorem worker_stack_carving (sizeof_context : Nat) (sctx : stack_context)
    (hsp : sctx.sp < SIZE_MODULUS) (hsize : sctx.size < SIZE_MODULUS)
    (hS : sizeof_context + 64 ≤ sctx.size) :
    (∀ p, make_worker_context sizeof_context sctx = some p →
      64 ∣ p.palloc.sp ∧
      p.address = p.palloc.sp ∧
      p.palloc.sctx = sctx ∧
      p.palloc.size = wrap_sub sctx.size (wrap_sub sctx.sp p.palloc.sp) ∧
      sizeof_context ≤ sctx.size - p.palloc.size ∧
      p.palloc.size < sctx.size) ∧
    (make_worker_context sizeof_context sctx = none ↔
      sizeof_context < sctx.sp ∧ sctx.sp ≤ sizeof_context + 64) ∧
    (sctx.size < sctx.sp →
      ∃ p, make_worker_context sizeof_context sctx = some p ∧
        p.palloc.sp ≤ sctx.sp ∧
        p.palloc.size = sctx.size - (sctx.sp - p.palloc.sp)) := by
  obtain ⟨S, t⟩ := sctx
  have hsp1 : t < SIZE_MODULUS := hsp
  have hsize1 : S < SIZE_MODULUS := hsize
  have hS1 : sizeof_context + 64 ≤ S := hS
  clear hsp hsize hS
  have hfs : sizeof_context + 64 < SIZE_MODULUS := by omega
  rw [make_worker_context_eq sizeof_context S t hfs]
  refine ⟨?_, ?_, ?_⟩
  · intro p hp
    split_ifs at hp with h0
    cases hp
    refine ⟨?_, rfl, rfl, rfl, ?_, ?_⟩
    · show 64 ∣ wrap_add (wrap_sub (wrap_sub (wrap_sub t sizeof_context) 64) 1) 64 / 64 * 64
      exact Dvd.intro_left _ rfl
    · show sizeof_context ≤ S - wrap_sub S (wrap_sub t
        (wrap_add (wrap_sub (wrap_sub (wrap_sub t sizeof_context) 64) 1) 64 / 64 * 64))
      unfold wrap_add wrap_sub SIZE_MODULUS at *
      omega
    · show wrap_sub S (wrap_sub t
        (wrap_add (wrap_sub (wrap_sub (wrap_sub t sizeof_context) 64) 1) 64 / 64 * 64)) < S
      unfold wrap_add wrap_sub SIZE_MODULUS at *
      omega
  · split_ifs with h0
    · simp only [true_iff]
      show sizeof_context < t ∧ t ≤ sizeof_context + 64
      unfold wrap_add wrap_sub SIZE_MODULUS at *
      omega
    · simp only [reduceCtorEq, false_iff]
      show ¬ (sizeof_context < t ∧ t ≤ sizeof_context + 64)
      unfold wrap_add wrap_sub SIZE_MODULUS at *
      omega
  · intro hbase
    have hbase1 : S < t := hbase
    clear hbase
    have h0 : ¬ wrap_add (wrap_sub (wrap_sub (wrap_sub t sizeof_context) 64) 1) 64 / 64 * 64
        = 0 := by
      unfold wrap_add wrap_sub SIZE_MODULUS at *
      omega
    rw [if_neg h0]
    refine ⟨_, rfl, ?_, ?_⟩
    · show wrap_add (wrap_sub (wrap_sub (wrap_sub t sizeof_context) 64) 1) 64 / 64 * 64 ≤ t
      unfold wrap_add wrap_sub SIZE_MODULUS at *
      omega
    · show wrap_sub S (wrap_sub t
          (wrap_add (wrap_sub (wrap_sub (wrap_sub t sizeof_context) 64) 1) 64 / 64 * 64)) =
        S - (t - wrap_add (wrap_sub (wrap_sub (wrap_sub t sizeof_context) 64) 1) 64 / 64 * 64)
      unfold wrap_add wrap_sub SIZE_MODULUS at *
      omega

/-- Witness for `worker_stack_carving`: a 64 KiB stack whose top address is
`0x7f0000010010`, with a control block of 320 bytes. -/
theorem worker_stack_carving_witness :
    make_worker_context 320 ⟨65536, 0x7f0000010010⟩ =
      some ⟨0x7f000000fec0, ⟨0x7f000000fec0, 65200, ⟨65536, 0x7f0000010010⟩⟩⟩ ∧
    (64 : Nat) ∣ 0x7f000000fec0 ∧
    320 ≤ 65536 - 65200 :=
  ⟨by decide,
    ((worker_stack_carving 320 ⟨65536, 0x7f0000010010⟩ (by decide) (by decide) (by decide)).1
      ⟨0x7f000000fec0, ⟨0x7f000000fec0, 65200, ⟨65536, 0x7f0000010010⟩⟩⟩ (by decide)).1,
    by decide⟩

theorem make_dispatcher_context_eq_worker (fs : Nat) (sctx : stack_context) (sched : Nat) :
    make_dispatcher_context fs sctx sched = make_worker_context fs sctx := rfl

/-- C3: for every stack context that describes an allocation `[t - S, t)` with
`S >= sizeof( context) + 64`, both factories construct the control block at the same
address `sp` and pass the same region to the switch primitive; the control block
`[sp, sp + sizeof( context))` lies inside the allocation, the region
`[sp - size, sp)` passed on starts at the lowest address `t - S` of the allocation,
and `S - size = sizeof( context) + padding` with `1 <= padding <= 64`. -/
theorem control_block_inside_allocation (sizeof_context : Nat) (sctx : stack_context)
    (sched : Nat) (hvalid : sctx.valid) (hS : sizeof_context + 64 ≤ sctx.size) :
    ∃ p, make_worker_context sizeof_context sctx = some p ∧
      make_dispatcher_context sizeof_context sctx sched = some p ∧
      p.address = p.palloc.sp ∧
      p.palloc.sctx = sctx ∧
      sctx.sp - sctx.size ≤ p.palloc.sp ∧
      p.palloc.sp + sizeof_context ≤ sctx.sp ∧
      p.palloc.size ≤ p.palloc.sp ∧
      p.palloc.sp - p.palloc.size = sctx.sp - sctx.size ∧
      ∃ padding, 1 ≤ padding ∧ padding ≤ 64 ∧
        sctx.size - p.palloc.size = sizeof_context + padding := by
  obtain ⟨S, t⟩ := sctx
  have hbase : S < t := hvalid.1
  have ht : t < SIZE_MODULUS := hvalid.2
  have hS1 : sizeof_context + 64 ≤ S := hS
  clear hvalid hS
  have hfs : sizeof_context + 64 < SIZE_MODULUS := by omega
  have h0 : ¬ wrap_add (wrap_sub (wrap_sub (wrap_sub t sizeof_context) 64) 1) 64 / 64 * 64
      = 0 := by
    unfold wrap_add wrap_sub SIZE_MODULUS at *
    omega
  rw [make_dispatcher_context_eq_worker, make_worker_context_eq sizeof_context S t hfs,
    if_neg h0]
  refine ⟨_, rfl, rfl, rfl, rfl, ?_, ?_, ?_, ?_,
    S - wrap_sub S (wrap_sub t
      (wrap_add (wrap_sub (wrap_sub (wrap_sub t sizeof_context) 64) 1) 64 / 64 * 64))
      - sizeof_context, ?_, ?_, ?_⟩
  · show t - S ≤ wrap_add (wrap_sub (wrap_sub (wrap_sub t sizeof_context) 64) 1) 64 / 64 * 64
    unfold wrap_add wrap_sub SIZE_MODULUS at *
    omega
  · show wrap_add (wrap_sub (wrap_sub (wrap_sub t sizeof_context) 64) 1) 64 / 64 * 64
      + sizeof_context ≤ t
    unfold wrap_add wrap_sub SIZE_MODULUS at *
    omega
  · show wrap_sub S (wrap_sub t
        (wrap_add (wrap_sub (wrap_sub (wrap_sub t sizeof_context) 64) 1) 64 / 64 * 64))
      ≤ wrap_add (wrap_sub (wrap_sub (wrap_sub t sizeof_context) 64) 1) 64 / 64 * 64
    unfold wrap_add wrap_sub SIZE_MODULUS at *
    omega
  · show wrap_add (wrap_sub (wrap_sub (wrap_sub t sizeof_context) 64) 1) 64 / 64 * 64
      - wrap_sub S (wrap_sub t
        (wrap_add (wrap_sub (wrap_sub (wrap_sub t sizeof_context) 64) 1) 64 / 64 * 64))
      = t - S
    unfold wrap_add wrap_sub SIZE_MODULUS at *
    omega
  · unfold wrap_add wrap_sub SIZE_MODULUS at *
    omega
  · unfold wrap_add wrap_sub SIZE_MODULUS at *
    omega
  · show S - wrap_sub S (wrap_sub t
        (wrap_add (wrap_sub (wrap_sub (wrap_sub t sizeof_context) 64) 1) 64 / 64 * 64))
      = sizeof_context + (S - wrap_sub S (wrap_sub t
        (wrap_add (wrap_sub (wrap_sub (wrap_sub t sizeof_context) 64) 1) 64 / 64 * 64))
        - sizeof_context)
    unfold wrap_add wrap_sub SIZE_MODULUS at *
    omega

/-- Witness for `control_block_inside_allocation`: a 64 KiB stack whose top address
is `0x7f0000010000`, with a control block of 320 bytes. -/
theorem control_block_inside_allocation_witness :
    stack_context.valid ⟨65536, 0x7f0000010000⟩ ∧ 320 + 64 ≤ 65536 ∧
    ∃ p, make_worker_context 320 ⟨65536, 0x7f0000010000⟩ = some p ∧
      make_dispatcher_context 320 ⟨65536, 0x7f0000010000⟩ 8192 = some p ∧
      p.palloc.sp - p.palloc.size = 0x7f0000010000 - 65536 :=
  ⟨by decide, by decide,
    (control_block_inside_allocation 320 ⟨65536, 0x7f0000010000⟩ 8192 (by decide)
      (by decide)).imp
      (fun _ h => ⟨h.1, h.2.1, h.2.2.2.2.2.2.2.1⟩)⟩

/-! ### The alignment assertion -/

/-- C10, as stated, fails at the boundary `sctx.sp = sizeof( context) + 64`: with a
control block of 320 bytes and a stack `[128, 384)` the top address 384 satisfies the
stated bound, the reserved pointer `384 - 320 - 64` is already null, `std::align`
returns it unchanged, and the assertion of both factories fails. -/
theorem alignment_assertion_fails_at_boundary :
    320 + 64 ≤ (384 : Nat) ∧
    stack_context.valid ⟨256, 384⟩ ∧
    wrap_sub (wrap_sub 384 320) 64 = nullptr ∧
    (std_align 64 320 (wrap_sub (wrap_sub 384 320) 64) (wrap_add 320 64)).1 = nullptr ∧
    make_worker_context 320 ⟨256, 384⟩ = none ∧
    make_dispatcher_context 320 ⟨256, 384⟩ 8192 = none := by
  decide

/-- C10, amended: for every stack top address `sctx.sp` with
`sctx.sp > sizeof( context) + 64`, so that the reserved pointer
`sctx.sp - sizeof( context) - 64` is neither wrapped nor null,
`std::align( 64, sizeof( context), sp, space)` with `space = sizeof( context) + 64`
returns a non-null pointer: the reserved pointer rounded up to the next multiple of
64, which consumes at most 63 bytes and leaves at least `sizeof( context)` bytes of
`space`; so the assertion holds in both factories. -/
theorem alignment_assertion_holds (sizeof_context : Nat) (sctx : stack_context)
    (sched : Nat) (hsp : sctx.sp < SIZE_MODULUS) (h : sizeof_context + 64 < sctx.sp) :
    (std_align 64 sizeof_context (wrap_sub (wrap_sub sctx.sp sizeof_context) 64)
      (wrap_add sizeof_context 64)).1 ≠ nullptr ∧
    (std_align 64 sizeof_context (wrap_sub (wrap_sub sctx.sp sizeof_context) 64)
      (wrap_add sizeof_context 64)).1
      = (sctx.sp - sizeof_context - 64 + 63) / 64 * 64 ∧
    (std_align 64 sizeof_context (wrap_sub (wrap_sub sctx.sp sizeof_context) 64)
      (wrap_add sizeof_context 64)).1 - (sctx.sp - sizeof_context - 64) ≤ 63 ∧
    sizeof_context ≤
      (std_align 64 sizeof_context (wrap_sub (wrap_sub sctx.sp sizeof_context) 64)
        (wrap_add sizeof_context 64)).2.2 ∧
    (make_worker_context sizeof_context sctx).isSome = true ∧
    (make_dispatcher_context sizeof_context sctx sched).isSome = true := by
  obtain ⟨S, t⟩ := sctx
  have ht : t < SIZE_MODULUS := hsp
  have hlt : sizeof_context + 64 < t := h
  clear hsp h
  have hfs : sizeof_context + 64 < SIZE_MODULUS := by omega
  have h1 : ¬ wrap_add sizeof_context 64 < sizeof_context := by
    unfold wrap_add SIZE_MODULUS at *
    omega
  have h2 : ¬ wrap_sub
      (wrap_add (wrap_sub (wrap_sub (wrap_sub t sizeof_context) 64) 1) 64 / 64 * 64)
      (wrap_sub (wrap_sub t sizeof_context) 64) > wrap_add sizeof_context 64 - sizeof_context := by
    unfold wrap_add wrap_sub SIZE_MODULUS at *
    omega
  have hal : std_align 64 sizeof_context (wrap_sub (wrap_sub t sizeof_context) 64)
      (wrap_add sizeof_context 64) =
      (wrap_add (wrap_sub (wrap_sub (wrap_sub t sizeof_context) 64) 1) 64 / 64 * 64,
        wrap_add (wrap_sub (wrap_sub (wrap_sub t sizeof_context) 64) 1) 64 / 64 * 64,
        wrap_add sizeof_context 64 - wrap_sub
          (wrap_add (wrap_sub (wrap_sub (wrap_sub t sizeof_context) 64) 1) 64 / 64 * 64)
          (wrap_sub (wrap_sub t sizeof_context) 64)) := by
    unfold std_align
    simp only [h1, h2, if_false]
  have h0 : ¬ wrap_add (wrap_sub (wrap_sub (wrap_sub t sizeof_context) 64) 1) 64 / 64 * 64
      = 0 := by
    unfold wrap_add wrap_sub SIZE_MODULUS at *
    omega
  rw [make_dispatcher_context_eq_worker, make_worker_context_eq sizeof_context S t hfs,
    if_neg h0]
  show (std_align 64 sizeof_context (wrap_sub (wrap_sub t sizeof_context) 64)
      (wrap_add sizeof_context 64)).1 ≠ nullptr ∧
    (std_align 64 sizeof_context (wrap_sub (wrap_sub t sizeof_context) 64)
      (wrap_add sizeof_context 64)).1 = (t - sizeof_context - 64 + 63) / 64 * 64 ∧
    (std_align 64 sizeof_context (wrap_sub (wrap_sub t sizeof_context) 64)
      (wrap_add sizeof_context 64)).1 - (t - sizeof_context - 64) ≤ 63 ∧
    sizeof_context ≤ (std_align 64 sizeof_context (wrap_sub (wrap_sub t sizeof_context) 64)
      (wrap_add sizeof_context 64)).2.2 ∧ _
  rw [hal]
  refine ⟨h0, ?_, ?_, ?_, rfl, rfl⟩
  · show wrap_add (wrap_sub (wrap_sub (wrap_sub t sizeof_context) 64) 1) 64 / 64 * 64
      = (t - sizeof_context - 64 + 63) / 64 * 64
    unfold wrap_add wrap_sub SIZE_MODULUS at *
    omega
  · show wrap_add (wrap_sub (wrap_sub (wrap_sub t sizeof_context) 64) 1) 64 / 64 * 64
      - (t - sizeof_context - 64) ≤ 63
    unfold wrap_add wrap_sub SIZE_MODULUS at *
    omega
  · show sizeof_context ≤ wrap_add sizeof_context 64 - wrap_sub
      (wrap_add (wrap_sub (wrap_sub (wrap_sub t sizeof_context) 64) 1) 64 / 64 * 64)
      (wrap_sub (wrap_sub t sizeof_context) 64)
    unfold wrap_add wrap_sub SIZE_MODULUS at *
    omega

/-- Witness for `alignment_assertion_holds`: the top address 385, one byte above the
boundary, with a control block of 320 bytes. -/
theorem alignment_assertion_holds_witness :
    (385 : Nat) < SIZE_MODULUS ∧ 320 + 64 < (385 : Nat) ∧
    (std_align 64 320 (wrap_sub (wrap_sub 385 320) 64) (wrap_add 320 64)).1 ≠ nullptr :=
  ⟨by decide, by decide,
    (alignment_assertion_holds 320 ⟨384, 385⟩ 8192 (by decide) (by decide)).1⟩

/-! ### Termination protocol of a worker -/

theorem is_terminated_set_terminated_ (c : context) :
    is_terminated c.set_terminated_ = true := by
  have hbit : ((c.flags_ ||| flag_terminated) &&& flag_terminated).testBit 4 = true := by
    rw [Nat.testBit_and, Nat.testBit_or]
    have h16 : flag_terminated.testBit 4 = true := by decide
    rw [h16]
    simp
  have hne : (c.flags_ ||| flag_terminated) &&& flag_terminated ≠ 0 := by
    intro h0
    rw [h0] at hbit
    simp at hbit
  simp only [is_terminated, context.set_terminated_, bne_iff_ne, ne_eq]
  exact fun e => hne e.symm

theorem is_worker_context_set_terminated_ (c : context) :
    is_worker_context c.set_terminated_ = is_worker_context c := by
  have h : (c.flags_ ||| flag_terminated) &&& flag_worker_context
      = c.flags_ &&& flag_worker_context := by
    rw [Nat.and_distrib_right]
    have h0 : flag_terminated &&& flag_worker_context = 0 := by decide
    rw [h0, Nat.or_zero]
  simp only [is_worker_context, context.set_terminated_, h]

/-- C4: when the user function returns, the entry closure of a worker performs
exactly the steps invoke fn, `set_terminated_()`, `release()`, `suspend_()`, each once
and in this order; `set_terminated_()` starts from the very state the user function
returned in, so the closure has not set the terminated flag before; the flag is set in
the state `release()` starts from, where every joiner is still in the wait queue and
none has reached the ready list; `release()` hands all of them to the ready list in
their order; and if control comes back from `suspend_()` the one further step is the
failing assertion "fiber already terminated". -/
theorem worker_termination_protocol {α β : Type}
    (fn : α → fiber_world → Option (β × fiber_world)) (tpl : α) (r : β)
    (resumed : Option fiber_world) (w wr : fiber_world) (hret : fn tpl w = some (r, wr)) :
    ∃ w1 w2 : fiber_world,
      worker_entry fn tpl resumed w =
        [(entry_step.invoke_fn, w), (entry_step.set_terminated_, wr),
          (entry_step.release, w1), (entry_step.suspend_, w2)] ++
        resumed.toList.map
          (fun w3 => (entry_step.assertion_failed "fiber already terminated", w3)) ∧
      (is_terminated w.self = false → is_terminated wr.self = false →
        ∀ e ∈ (worker_entry fn tpl resumed w).take 2, is_terminated e.2.self = false) ∧
      is_terminated w1.self = true ∧
      w1.self.wait_queue_ = wr.self.wait_queue_ ∧
      w1.ready_queue = wr.ready_queue ∧
      is_terminated w2.self = true ∧
      w2.self.wait_queue_ = [] ∧
      w2.ready_queue = wr.ready_queue ++ wr.self.wait_queue_ ∧
      is_worker_context w2.self = is_worker_context wr.self ∧
      w2.self.use_count_ = wr.self.use_count_ := by
  have hlog : worker_entry fn tpl resumed w =
      [(entry_step.invoke_fn, w), (entry_step.set_terminated_, wr),
        (entry_step.release, { wr with self := wr.self.set_terminated_ }),
        (entry_step.suspend_,
          fiber_world.release { wr with self := wr.self.set_terminated_ })] ++
      resumed.toList.map
        (fun w3 => (entry_step.assertion_failed "fiber already terminated", w3)) := by
    unfold worker_entry
    rw [hret]
    cases resumed <;> rfl
  refine ⟨{ wr with self := wr.self.set_terminated_ },
    fiber_world.release { wr with self := wr.self.set_terminated_ }, hlog, ?_,
    is_terminated_set_terminated_ wr.self, rfl, rfl, ?_, rfl, rfl, ?_, rfl⟩
  · intro hnt hntr e he
    rw [hlog] at he
    simp only [List.cons_append, List.take_succ_cons, List.take_zero, List.mem_cons,
      List.mem_nil_iff, or_false, List.not_mem_nil] at he
    rcases he with he | he <;> rw [he]
    · exact hnt
    · exact hntr
  · exact is_terminated_set_terminated_ wr.self
  · exact is_worker_context_set_terminated_ wr.self

/-- Witness for `worker_termination_protocol`: a fresh worker context, a user function
that returns its argument plus one after the contexts at `0x5000` and `0x6000` have
joined, and control never coming back from the terminal suspend. -/
theorem worker_termination_protocol_witness :
    (worker_entry
      (fun (n : Nat) (w : fiber_world) =>
        some (n + 1, { w with self := { w.self with wait_queue_ := [0x5000, 0x6000] } }))
      41 none
      ⟨worker ⟨0x7f000000fe80, 65152, ⟨65536, 0x7f0000010000⟩⟩ () () (), [0x7000]⟩).map
        Prod.fst =
      [entry_step.invoke_fn, entry_step.set_terminated_, entry_step.release,
        entry_step.suspend_] := by
  obtain ⟨w1, w2, hlog, _⟩ := worker_termination_protocol
    (fun (n : Nat) (w : fiber_world) =>
      some (n + 1, { w with self := { w.self with wait_queue_ := [0x5000, 0x6000] } }))
    41 42 none
    ⟨worker ⟨0x7f000000fe80, 65152, ⟨65536, 0x7f0000010000⟩⟩ () () (), [0x7000]⟩ _ rfl
  rw [hlog]
  rfl

end Fiber
